import Mathlib

/-!
Shallow embedding of the claudian chat-rendering layer.

The `StatusPanel` definitions are translated from the repository source
(`StatusPanel` component: `mount`, `updateTodos`, `updateSubagent`,
`clearSubagents`, `restoreSubagents`, `truncateDescription`,
`getStatusText`).  DOM elements are modelled by the data they display.

Components whose implementation files are not part of the provided
sources (ChatState, MessageRenderer, SubagentRenderer, the collapsible
primitive) are modelled from the specification; each such definition
carries a doc comment starting with `Modelled from the spec:`.
-/

namespace Claudian

/-! ## Data model -/

/-- Async subagent lifecycle status (`pending|running|completed|error|orphaned`). -/
inductive AsyncSubagentStatus
  | pending
  | running
  | completed
  | error
  | orphaned
deriving DecidableEq, Repr

/-- Subagent mode (`sync` or `async`); optional on `SubagentInfo`. -/
inductive SubagentMode
  | sync
  | async
deriving DecidableEq, Repr

/-- Todo item status (`pending|in_progress|completed`). -/
inductive TodoStatus
  | pending
  | in_progress
  | completed
deriving DecidableEq, Repr

/-- A todo list item: `{content, activeForm, status}`. -/
structure TodoItem where
  content : String
  activeForm : String
  status : TodoStatus
deriving DecidableEq, Repr

/-- Display info for one async subagent in the status panel
(source interface `PanelSubagentInfo`). -/
structure PanelSubagentInfo where
  id : String
  description : String
  status : AsyncSubagentStatus
deriving DecidableEq, Repr

/-- The fields of a persisted `SubagentInfo` record that the status panel
reads: `id`, `description`, optional `mode`, optional `asyncStatus`. -/
structure SubagentInfo where
  id : String
  description : String
  mode : Option SubagentMode
  asyncStatus : Option AsyncSubagentStatus
deriving DecidableEq, Repr

/-! ## Ordered association lists (JS `Map` semantics)

A JavaScript `Map` keeps insertion order; `set` on an existing key
replaces the value in place, `set` on a fresh key appends. -/

/-- Lookup in an insertion-ordered map. -/
def lookupAssoc {α : Type} (m : List (String × α)) (k : String) : Option α :=
  (m.find? (fun kv => kv.1 = k)).map (fun kv => kv.2)

/-- `Map.set`: replace in place when the key exists, append otherwise. -/
def setAssoc {α : Type} (m : List (String × α)) (k : String) (v : α) : List (String × α) :=
  if m.any (fun kv => kv.1 = k) then
    m.map (fun kv => if kv.1 = k then (k, v) else kv)
  else
    m ++ [(k, v)]

/-! ## StatusPanel (translated from the source) -/

/-- `getStatusText` from the source: status display text. -/
def getStatusText : AsyncSubagentStatus → String
  | .pending => "Initializing"
  | .running => "Running in background"
  | .completed => ""
  | .error => "Error"
  | .orphaned => "Orphaned"

/-- `truncateDescription` from the source: keep the string when its length
is at most `maxLength`, otherwise take the first `maxLength` characters
and append a literal `"..."`. -/
def truncateDescription (description : String) (maxLength : Nat) : String :=
  if description.length ≤ maxLength then description
  else (description.take maxLength) ++ "..."

/-- The source calls `truncateDescription` with its default `maxLength = 40`. -/
def truncateDescription40 (description : String) : String :=
  truncateDescription description 40

/-- The data displayed by one subagent entry element in the panel:
label text, status text and the status carried by the CSS classes.
`createSubagentElement` and `updateSubagentElement` both derive exactly
this data from a `PanelSubagentInfo`. -/
structure SubagentElementView where
  labelText : String
  statusText : String
  statusClass : AsyncSubagentStatus
deriving DecidableEq, Repr

/-- The element built by `createSubagentElement` / refreshed by
`updateSubagentElement`: truncated description as label, `getStatusText`
as status text, the status itself as the `status-<s>` class. -/
def mkSubagentElementView (info : PanelSubagentInfo) : SubagentElementView :=
  { labelText := truncateDescription40 info.description
    statusText := getStatusText info.status
    statusClass := info.status }

/-- StatusPanel state: `mounted` stands for the container/header/content
elements being non-null (they are created together by `mount`);
`subagentElements` and `currentSubagents` are the two insertion-ordered
maps of the source; `currentTodos` and the todo display flags mirror the
todo section. -/
structure StatusPanel where
  mounted : Bool
  subagentElements : List (String × SubagentElementView)
  currentSubagents : List (String × PanelSubagentInfo)
  currentTodos : Option (List TodoItem)
  isTodoExpanded : Bool
  todoVisible : Bool
deriving DecidableEq, Repr

namespace StatusPanel

/-- A freshly constructed panel: nothing mounted, both maps empty. -/
def new : StatusPanel :=
  { mounted := false
    subagentElements := []
    currentSubagents := []
    currentTodos := none
    isTodoExpanded := false
    todoVisible := false }

/-- `mount`: stores the container and creates the panel structure, after
which the todo container/header/content elements are non-null. -/
def mount (p : StatusPanel) : StatusPanel :=
  { p with mounted := true }

/-- `updateTodos` from the source: if the todo elements are not created
yet (component not mounted) return without touching any state; otherwise
store the todos and show or hide the todo section. -/
def updateTodos (p : StatusPanel) (todos : Option (List TodoItem)) : StatusPanel :=
  if p.mounted = false then p
  else
    let p := { p with currentTodos := todos }
    match todos with
    | none => { p with todoVisible := false }
    | some ts =>
        if ts.isEmpty then { p with todoVisible := false }
        else { p with todoVisible := true }

/-- `updateSubagent` from the source: always record the info in
`currentSubagents`; then refresh the existing element in place, or create
a new one (element creation silently returns before mount, when the
subagent container element is null). -/
def updateSubagent (p : StatusPanel) (info : PanelSubagentInfo) : StatusPanel :=
  let p1 := { p with currentSubagents := setAssoc p.currentSubagents info.id info }
  match lookupAssoc p1.subagentElements info.id with
  | some _ =>
      { p1 with subagentElements := setAssoc p1.subagentElements info.id (mkSubagentElementView info) }
  | none =>
      if p1.mounted then
        { p1 with subagentElements := p1.subagentElements ++ [(info.id, mkSubagentElementView info)] }
      else p1

/-- `clearSubagents` from the source: remove every element and forget
every recorded subagent. -/
def clearSubagents (p : StatusPanel) : StatusPanel :=
  { p with subagentElements := [], currentSubagents := [] }

/-- The status mapping used inside `restoreSubagents`:
`completed`/`error`/`orphaned` pass through, everything else (running,
pending, or a missing `asyncStatus`) becomes `orphaned`. -/
def restoredStatus : Option AsyncSubagentStatus → AsyncSubagentStatus
  | some .completed => .completed
  | some .error => .error
  | some .orphaned => .orphaned
  | _ => .orphaned

/-- `restoreSubagents` from the source: clear all current entries, keep
only records with `mode === 'async'`, and re-add each through
`updateSubagent` with the mapped display status. -/
def restoreSubagents (p : StatusPanel) (subagents : List SubagentInfo) : StatusPanel :=
  let p0 := p.clearSubagents
  let asyncSubagents := subagents.filter (fun s => s.mode = some .async)
  asyncSubagents.foldl
    (fun acc s =>
      acc.updateSubagent
        { id := s.id, description := s.description, status := restoredStatus s.asyncStatus })
    p0

end StatusPanel

/-! ## Collapsible primitive

Modelled from the spec: the implementation file is not among the
provided sources (only its unit tests are). -/

/-- Modelled from the spec: the observable state of a collapsible block —
the `CollapsibleState.isExpanded` flag, the wrapper's `expanded` CSS
class, the content's `display` style, and the header's `aria-expanded`
and optional `aria-label` attributes. -/
structure CollapsibleView where
  isExpanded : Bool
  wrapperExpanded : Bool
  contentDisplay : String
  ariaExpanded : String
  ariaLabel : Option String
deriving DecidableEq, Repr

/-- Modelled from the spec: applying an expansion state updates the CSS
expanded flag, content visibility, `aria-expanded`, and the optional
`aria-label` suffix (click to expand / click to collapse). -/
def applyCollapsibleState (baseAriaLabel : Option String) (expanded : Bool) : CollapsibleView :=
  { isExpanded := expanded
    wrapperExpanded := expanded
    contentDisplay := if expanded then "block" else "none"
    ariaExpanded := if expanded then "true" else "false"
    ariaLabel := baseAriaLabel.map
      (fun b => b ++ (if expanded then " - click to collapse" else " - click to expand")) }

/-- Modelled from the spec: `setupCollapsible` starts collapsed unless
`initiallyExpanded = true` is explicitly passed. -/
def setupCollapsible (initiallyExpanded : Bool) (baseAriaLabel : Option String) : CollapsibleView :=
  applyCollapsibleState baseAriaLabel initiallyExpanded

/-- Modelled from the spec: a click on the header toggles the state and
invokes the optional `onToggle` callback with the new state (returned as
the second component). -/
def toggleCollapsible (baseAriaLabel : Option String) (v : CollapsibleView) :
    CollapsibleView × Bool :=
  let v1 := applyCollapsibleState baseAriaLabel (!v.isExpanded)
  (v1, v1.isExpanded)

/-- Modelled from the spec: the header keydown handler toggles on
`Enter` and `Space` (calling `preventDefault`, second component) and
ignores every other key; the third component is the `onToggle`
invocation, if any. -/
def collapsibleKeydown (baseAriaLabel : Option String) (v : CollapsibleView) (key : String) :
    CollapsibleView × Bool × Option Bool :=
  if key = "Enter" ∨ key = " " then
    let t := toggleCollapsible baseAriaLabel v
    (t.1, true, some t.2)
  else
    (v, false, none)

/-! ## Sync subagent block renderer

Modelled from the spec: the SubagentRenderer implementation file is not
among the provided sources (only its unit tests are).  DOM elements are
identified by allocation numbers so that reuse versus re-creation of the
result element is observable. -/

/-- Tool call lifecycle status. -/
inductive ToolStatus
  | pending
  | running
  | completed
  | error
deriving DecidableEq, Repr

/-- A nested tool call of a subagent: `{id, name, status, result?, isExpanded}`. -/
structure ToolCallInfo where
  id : String
  name : String
  status : ToolStatus
  result : Option String
  isExpanded : Bool
deriving DecidableEq, Repr

/-- Modelled from the spec: the mutable state of a sync subagent block.
`currentToolEl` is the current tool item element (allocation number plus
its `toolId` dataset); `currentResultEl` is the lazily created result
element; `nextEl` feeds fresh element identities. -/
structure SubagentBlockState where
  subagentId : String
  toolCalls : List ToolCallInfo
  labelText : String
  countText : String
  currentToolEl : Option (Nat × String)
  currentResultEl : Option Nat
  currentResultText : Option String
  nextEl : Nat
deriving DecidableEq, Repr

/-- Modelled from the spec: `createSubagentBlock` starts with no tool
calls, a `0 tool uses` counter badge, the description as label, and no
current tool or result element. -/
def createSubagentBlock (id description : String) : SubagentBlockState :=
  { subagentId := id
    toolCalls := []
    labelText := description
    countText := "0 tool uses"
    currentToolEl := none
    currentResultEl := none
    currentResultText := none
    nextEl := 0 }

/-- Modelled from the spec: `addSubagentToolCall` appends the tool call,
clears any in-progress result display, renders a fresh current tool item
and refreshes the counter badge. -/
def addSubagentToolCall (s : SubagentBlockState) (tc : ToolCallInfo) : SubagentBlockState :=
  { s with
    toolCalls := s.toolCalls ++ [tc]
    countText := toString (s.toolCalls.length + 1) ++ " tool uses"
    currentToolEl := some (s.nextEl, tc.id)
    currentResultEl := none
    currentResultText := none
    nextEl := s.nextEl + 1 }

/-- Modelled from the spec: `updateSubagentToolResult` matches by
tool-call id and is silently ignored when no tool call matches; on a
match it replaces the stored tool call and, when a result is present,
lazily creates the result element on first use and reuses it afterwards. -/
def updateSubagentToolResult (s : SubagentBlockState) (toolCallId : String)
    (updated : ToolCallInfo) : SubagentBlockState :=
  if s.toolCalls.any (fun tc => tc.id = toolCallId) then
    let s1 := { s with
      toolCalls := s.toolCalls.map (fun tc => if tc.id = toolCallId then updated else tc) }
    match updated.result with
    | none => s1
    | some r =>
        match s1.currentResultEl with
        | some _ => { s1 with currentResultText := some r }
        | none =>
            { s1 with
              currentResultEl := some s1.nextEl
              currentResultText := some r
              nextEl := s1.nextEl + 1 }
  else s

/-- Modelled from the spec: `renderStoredSubagent` displays the
subagent's description in the label, truncated with an ellipsis beyond
40 characters (same rule as the status panel). -/
def renderStoredSubagentLabelText (description : String) : String :=
  truncateDescription description 40

/-! ## Message renderer

Modelled from the spec: the MessageRenderer implementation file is not
among the provided sources (only its unit tests are).  Rendering is
modelled as the ordered list of renderer invocations it produces. -/

/-- Modelled from the spec: the name of the internal agent-output/signal
tool (`TOOL_AGENT_OUTPUT`), the inter-agent communication primitive used
by async subagents to signal completion. -/
def TOOL_AGENT_OUTPUT : String := "TaskOutput"

/-- Modelled from the spec: the name of the legacy delegate-task tool
(`TOOL_TASK`), rendered as a subagent block for backward compatibility. -/
def TOOL_TASK : String := "Task"

/-- Modelled from the spec: the todo tool, whose calls are not rendered
inline (they only affect the bottom panel). -/
def TOOL_TODO_WRITE : String := "TodoWrite"

/-- The slice of a stored tool call the renderer dispatches on. -/
structure MsgToolCall where
  id : String
  name : String
deriving DecidableEq, Repr

/-- The slice of a stored subagent record the renderer dispatches on. -/
structure MsgSubagent where
  id : String
  mode : Option SubagentMode
deriving DecidableEq, Repr

/-- A content block of a stored assistant message. -/
inductive ContentBlock
  | text (content : String)
  | thinking (content : String)
  | toolUse (toolId : String)
  | subagentRef (subagentId : String)
deriving DecidableEq, Repr

/-- The parts of a stored assistant message that block rendering reads. -/
structure StoredMessage where
  toolCalls : List MsgToolCall
  subagents : List MsgSubagent
  contentBlocks : List ContentBlock
  durationSeconds : Option Nat
  durationFlavorWord : Option String
deriving DecidableEq, Repr

/-- One renderer invocation made while rendering a stored message. -/
inductive RenderEvent
  | thinkingBlock (content : String)
  | textBlock (content : String)
  | storedToolCall (id : String) (name : String)
  | writeEdit (id : String)
  | storedSubagent (id : String)
  | storedAsyncSubagent (id : String)
  | responseFooter (text : String)
deriving DecidableEq, Repr

/-- Modelled from the spec: rendering one content block. Thinking blocks
go to the thinking renderer; empty (post-trim) text blocks are skipped;
a `tool_use` block is resolved through the message's `toolCalls` by id
(skipped when unresolvable), then suppressed for the agent-output signal
tool and for TodoWrite, rendered as a subagent block for the legacy Task
tool, as a diff block for Write/Edit, and through the generic tool-call
renderer otherwise; a subagent block is resolved through `subagents` by
id and dispatched on its mode. -/
def renderContentBlock (msg : StoredMessage) : ContentBlock → List RenderEvent
  | .thinking c => [.thinkingBlock c]
  | .text c => if c.trim = "" then [] else [.textBlock c]
  | .toolUse tid =>
      match msg.toolCalls.find? (fun tc => tc.id = tid) with
      | none => []
      | some tc =>
          if tc.name = TOOL_AGENT_OUTPUT then []
          else if tc.name = TOOL_TODO_WRITE then []
          else if tc.name = TOOL_TASK then [.storedSubagent tc.id]
          else if tc.name = "Write" ∨ tc.name = "Edit" then [.writeEdit tc.id]
          else [.storedToolCall tc.id tc.name]
  | .subagentRef sid =>
      match msg.subagents.find? (fun sa => sa.id = sid) with
      | none => []
      | some sa =>
          if sa.mode = some SubagentMode.async then [.storedAsyncSubagent sa.id]
          else [.storedSubagent sa.id]

/-- Rendering all content blocks of a message, in array order. -/
def renderAssistantBlocks (msg : StoredMessage) : List RenderEvent :=
  msg.contentBlocks.flatMap (renderContentBlock msg)

/-- The duration format used in the response footer: `<n>m <n>s`. -/
def formatDuration (seconds : Nat) : String :=
  toString (seconds / 60) ++ "m " ++ toString (seconds % 60) ++ "s"

/-- Modelled from the spec: when `durationSeconds` is present and greater
than zero, one response footer is appended whose text is the flavor word
(default `Baked`) followed by the formatted duration; a zero or absent
duration renders no footer. -/
def renderDurationFooter (msg : StoredMessage) : List RenderEvent :=
  match msg.durationSeconds with
  | none => []
  | some d =>
      if 0 < d then
        [.responseFooter ((msg.durationFlavorWord.getD "Baked") ++ " " ++ formatDuration d)]
      else []

/-- Modelled from the spec: `renderStoredMessage` on an assistant message
with content blocks renders each block in order, then appends the
duration footer when applicable. -/
def renderStoredMessageEvents (msg : StoredMessage) : List RenderEvent :=
  renderAssistantBlocks msg ++ renderDurationFooter msg

/-- Projection selecting generic tool-call renderer invocations. -/
def storedToolCallEvent? : RenderEvent → Option (String × String)
  | .storedToolCall id name => some (id, name)
  | _ => none

/-- Projection selecting response footer events. -/
def responseFooterText? : RenderEvent → Option String
  | .responseFooter t => some t
  | _ => none

/-- A `tool_use` block resolving to an ordinary tool: its tool call is
found in the message and is none of the agent-output signal tool,
TodoWrite, the legacy Task tool, or a Write/Edit call. -/
def ordinaryToolUse? (msg : StoredMessage) : ContentBlock → Option (String × String)
  | .toolUse tid =>
      match msg.toolCalls.find? (fun tc => tc.id = tid) with
      | none => none
      | some tc =>
          if tc.name = TOOL_AGENT_OUTPUT then none
          else if tc.name = TOOL_TODO_WRITE then none
          else if tc.name = TOOL_TASK then none
          else if tc.name = "Write" ∨ tc.name = "Edit" then none
          else some (tc.id, tc.name)
  | _ => none

/-- Children of the messages container, as far as `renderMessages` is
concerned: the welcome/empty element and one element per stored message. -/
inductive ContainerChild
  | welcome (text : String)
  | message (m : StoredMessage)
deriving DecidableEq, Repr

/-- Modelled from the spec: `renderMessages(messages, emptyStateFactory)`
clears the container, creates the welcome element (always, regardless of
message count), then calls `renderStoredMessage` once per message in
order.  Returns the resulting container children paired with the number
of `renderStoredMessage` calls made. -/
def renderMessages (container : List ContainerChild) (messages : List StoredMessage)
    (emptyStateFactory : Unit → String) : List ContainerChild × Nat :=
  let cleared : List ContainerChild := container.filter (fun _ => false)
  let withWelcome := cleared ++ [.welcome (emptyStateFactory ())]
  messages.foldl (fun acc m => (acc.1 ++ [.message m], acc.2 + 1)) (withWelcome, 0)

/-! ## Chat state

Modelled from the spec: the ChatState implementation file is not among
the provided sources (only its unit tests are).  Arrays that the class
copies defensively are modelled through an explicit heap of array cells,
so that aliasing of a returned array is observable. -/

/-- A heap of todo arrays; a reference is an index into `cells`. -/
structure TodoHeap where
  cells : List (List TodoItem)
deriving DecidableEq, Repr

/-- Allocate a fresh array cell holding `v`; returns the new heap and
the fresh reference. -/
def TodoHeap.alloc (h : TodoHeap) (v : List TodoItem) : TodoHeap × Nat :=
  ({ cells := h.cells ++ [v] }, h.cells.length)

/-- Read an array cell. -/
def TodoHeap.read (h : TodoHeap) (r : Nat) : List TodoItem :=
  h.cells.getD r []

/-- Mutate an array cell in place. -/
def TodoHeap.write (h : TodoHeap) (r : Nat) (v : List TodoItem) : TodoHeap :=
  { cells := h.cells.set r v }

/-- Token usage totals, as held by ChatState. -/
structure UsageInfo where
  inputTokens : Nat
  outputTokens : Nat
deriving DecidableEq, Repr

/-- A chat message, as far as ChatState manages it. -/
structure ChatMessage where
  id : String
  role : String
  content : String
  timestamp : Nat
deriving DecidableEq, Repr

/-- A callback invocation recorded while mutating ChatState. -/
inductive ChatStateEvent
  | messagesChanged
  | usageChanged (usage : Option UsageInfo)
  | todosChanged (todos : Option (List TodoItem))
  | autoScrollChanged (enabled : Bool)
deriving DecidableEq, Repr

/-- Modelled from the spec: the fields of ChatState that the claims
read.  `todosCell` is the reference to the internally stored todo array
(null when no todos are set); the three identity maps are modelled as
association lists of opaque handles. -/
structure ChatState where
  messages : List ChatMessage
  isStreaming : Bool
  cancelRequested : Bool
  autoScrollEnabled : Bool
  usage : Option UsageInfo
  todosCell : Option Nat
  queuedMessage : Option String
  toolCallElements : List (String × Nat)
  writeEditStates : List (String × Nat)
  pendingTools : List (String × Nat)
deriving DecidableEq, Repr

/-- Modelled from the spec: the `currentTodos` setter normalizes an
empty array to null before storing and notifying; a non-empty array is
stored in a fresh internal cell and the callback is notified with the
list.  Returns the heap, the new state and the recorded callback
invocations. -/
def setCurrentTodos (h : TodoHeap) (s : ChatState) (v : List TodoItem) :
    TodoHeap × ChatState × List ChatStateEvent :=
  if v.isEmpty then
    (h, { s with todosCell := none }, [.todosChanged none])
  else
    let a := h.alloc v
    (a.1, { s with todosCell := some a.2 }, [.todosChanged (some v)])

/-- Modelled from the spec: the `currentTodos` getter returns a
defensive copy — null when nothing is stored, otherwise a freshly
allocated array whose content equals the stored one. -/
def getCurrentTodos (h : TodoHeap) (s : ChatState) : TodoHeap × Option Nat :=
  match s.todosCell with
  | none => (h, none)
  | some r =>
      let a := h.alloc (h.read r)
      (a.1, some a.2)

/-- The content behind the reference that the `currentTodos` getter
returns (what a caller reading the returned array sees). -/
def getCurrentTodosContent (h : TodoHeap) (s : ChatState) : Option (List TodoItem) :=
  let g := getCurrentTodos h s
  g.2.map (fun r => g.1.read r)

/-- Modelled from the spec: `resetForNewConversation` clears messages,
the three identity maps, the queued message, usage and todos, resets the
streaming flags, and resets `autoScrollEnabled` to `true`; it fires
`onMessagesChanged`, `onUsageChanged(null)` and `onTodosChanged(null)`,
and fires `onAutoScrollChanged(true)` only when `autoScrollEnabled` was
not already `true` (the boolean setter suppresses the callback on an
unchanged value). -/
def resetForNewConversation (s : ChatState) : ChatState × List ChatStateEvent :=
  ({ messages := []
     isStreaming := false
     cancelRequested := false
     autoScrollEnabled := true
     usage := none
     todosCell := none
     queuedMessage := none
     toolCallElements := []
     writeEditStates := []
     pendingTools := [] },
   [.messagesChanged, .usageChanged none, .todosChanged none] ++
     (if s.autoScrollEnabled then [] else [.autoScrollChanged true]))

/-! ## Helper lemmas -/

/-- Appending a singleton and reading at the old length yields the new value. -/
theorem getD_append_length {α : Type} (l : List α) (v d : α) :
    (l ++ [v]).getD l.length d = v := by
  induction l with
  | nil => rfl
  | cons a t ih =>
      simp only [List.cons_append, List.length_cons, List.getD_cons_succ]
      exact ih

/-- Appending a singleton does not change reads below the old length. -/
theorem getD_append_lt {α : Type} (l : List α) (v d : α) (r : Nat) (h : r < l.length) :
    (l ++ [v]).getD r d = l.getD r d := by
  induction l generalizing r with
  | nil => exact absurd h (by simp)
  | cons a t ih =>
      cases r with
      | zero => rfl
      | succ n =>
          simp only [List.cons_append, List.getD_cons_succ]
          exact ih n (by simpa using h)

/-- Setting one index does not change reads at a different index. -/
theorem getD_set_ne {α : Type} (l : List α) (r r' : Nat) (v d : α) (h : r ≠ r') :
    (l.set r' v).getD r d = l.getD r d := by
  induction l generalizing r r' with
  | nil => simp
  | cons a t ih =>
      cases r' with
      | zero =>
          cases r with
          | zero => exact absurd rfl h
          | succ n => simp [List.getD_cons_succ]
      | succ m =>
          cases r with
          | zero => rfl
          | succ n =>
              simp only [List.set_cons_succ, List.getD_cons_succ]
              exact ih n m (fun he => h (by simpa using congrArg Nat.succ he))

/-- `setAssoc` on a fresh key appends. -/
theorem setAssoc_fresh {α : Type} (m : List (String × α)) (k : String) (v : α)
    (h : ∀ kv ∈ m, kv.1 ≠ k) : setAssoc m k v = m ++ [(k, v)] := by
  unfold setAssoc
  rw [if_neg]
  intro hc
  rw [List.any_eq_true] at hc
  obtain ⟨kv, hkv, he⟩ := hc
  exact h kv hkv (by simpa using he)

/-- `lookupAssoc` on a fresh key yields nothing. -/
theorem lookupAssoc_fresh {α : Type} (m : List (String × α)) (k : String)
    (h : ∀ kv ∈ m, kv.1 ≠ k) : lookupAssoc m k = none := by
  unfold lookupAssoc
  rw [List.find?_eq_none.mpr]
  · rfl
  · intro kv hkv
    simpa using h kv hkv

/-- `updateSubagent` on a mounted panel with an id fresh for both maps
appends a new record and a new element. -/
theorem updateSubagent_fresh (p : StatusPanel) (info : PanelSubagentInfo)
    (hm : p.mounted = true)
    (he : ∀ kv ∈ p.subagentElements, kv.1 ≠ info.id)
    (hc : ∀ kv ∈ p.currentSubagents, kv.1 ≠ info.id) :
    p.updateSubagent info =
      { p with
        currentSubagents := p.currentSubagents ++ [(info.id, info)]
        subagentElements := p.subagentElements ++ [(info.id, mkSubagentElementView info)] } := by
  unfold StatusPanel.updateSubagent
  rw [setAssoc_fresh p.currentSubagents info.id info hc]
  simp only [lookupAssoc_fresh p.subagentElements info.id he, hm, if_true]

/-- Folding `updateSubagent` over records with pairwise fresh, nodup ids
appends them to both maps in order. -/
theorem foldl_updateSubagent_fresh (rs : List PanelSubagentInfo) (p : StatusPanel)
    (hm : p.mounted = true)
    (hnodup : (rs.map (fun r => r.id)).Nodup)
    (hfe : ∀ r ∈ rs, ∀ kv ∈ p.subagentElements, kv.1 ≠ r.id)
    (hfc : ∀ r ∈ rs, ∀ kv ∈ p.currentSubagents, kv.1 ≠ r.id) :
    rs.foldl (fun acc r => acc.updateSubagent r) p =
      { p with
        currentSubagents := p.currentSubagents ++ rs.map (fun r => (r.id, r))
        subagentElements :=
          p.subagentElements ++ rs.map (fun r => (r.id, mkSubagentElementView r)) } := by
  induction rs generalizing p with
  | nil => simp
  | cons r rs ih =>
      have hnodup' : (r.id :: rs.map (fun x => x.id)).Nodup := by simpa using hnodup
      have hnd := List.nodup_cons.mp hnodup'
      have hdiff : ∀ r' ∈ rs, r.id ≠ r'.id := by
        intro r' hr' hcontra
        apply hnd.1
        rw [hcontra]
        exact List.mem_map_of_mem (fun x => x.id) hr'
      have hfe' : ∀ r' ∈ rs,
          ∀ kv ∈ p.subagentElements ++ [(r.id, mkSubagentElementView r)], kv.1 ≠ r'.id := by
        intro r' hr' kv hkv
        rcases List.mem_append.mp hkv with hkv | hkv
        · exact hfe r' (by simp [hr']) kv hkv
        · have hkv' : kv = (r.id, mkSubagentElementView r) := by simpa using hkv
          subst hkv'
          exact hdiff r' hr'
      have hfc' : ∀ r' ∈ rs,
          ∀ kv ∈ p.currentSubagents ++ [(r.id, r)], kv.1 ≠ r'.id := by
        intro r' hr' kv hkv
        rcases List.mem_append.mp hkv with hkv | hkv
        · exact hfc r' (by simp [hr']) kv hkv
        · have hkv' : kv = (r.id, r) := by simpa using hkv
          subst hkv'
          exact hdiff r' hr'
      rw [List.foldl_cons,
        updateSubagent_fresh p r hm (hfe r (by simp)) (hfc r (by simp)),
        ih { p with
              subagentElements := p.subagentElements ++ [(r.id, mkSubagentElementView r)]
              currentSubagents := p.currentSubagents ++ [(r.id, r)] }
          hm hnd.2 hfe' hfc']
      simp

/-- The status an entry gets in `restoreSubagents` is always terminal. -/
theorem restoredStatus_terminal (a : Option AsyncSubagentStatus) :
    StatusPanel.restoredStatus a = .completed ∨
    StatusPanel.restoredStatus a = .error ∨
    StatusPanel.restoredStatus a = .orphaned := by
  rcases a with _ | st
  · exact Or.inr (Or.inr rfl)
  · cases st <;> simp [StatusPanel.restoredStatus]

/-! ## Claim theorems -/

/-- C1: `restoreSubagents` rebuilds the panel from persisted records:
afterwards the panel holds exactly one element per `mode = async` record
(pre-existing entries and non-async records are absent, in the order of
the input list), each displaying the truncated description and the
status mapped by `restoredStatus` — `completed`/`error`/`orphaned` pass
through, `running`/`pending`/anything else become `orphaned` — so no
restored entry is ever displayed as running or pending. -/
theorem restoreSubagents_spec (p : StatusPanel) (subagents : List SubagentInfo)
    (hm : p.mounted = true)
    (hnodup :
      ((subagents.filter (fun s => s.mode = some SubagentMode.async)).map
        (fun s => s.id)).Nodup) :
    (p.restoreSubagents subagents).subagentElements
        = (subagents.filter (fun s => s.mode = some SubagentMode.async)).map
            (fun s => (s.id, mkSubagentElementView
                ⟨s.id, s.description, StatusPanel.restoredStatus s.asyncStatus⟩))
    ∧ StatusPanel.restoredStatus (some .completed) = .completed
    ∧ StatusPanel.restoredStatus (some .error) = .error
    ∧ StatusPanel.restoredStatus (some .orphaned) = .orphaned
    ∧ (∀ a : Option AsyncSubagentStatus,
        a ≠ some .completed → a ≠ some .error → a ≠ some .orphaned →
        StatusPanel.restoredStatus a = .orphaned)
    ∧ (∀ kv ∈ (p.restoreSubagents subagents).subagentElements,
        kv.2.statusClass ≠ AsyncSubagentStatus.running ∧
        kv.2.statusClass ≠ AsyncSubagentStatus.pending ∧
        kv.2.statusText ≠ getStatusText .running ∧
        kv.2.statusText ≠ getStatusText .pending) := by
  have hfold :
      (subagents.filter (fun s => s.mode = some SubagentMode.async)).foldl
          (fun acc s => acc.updateSubagent
            { id := s.id, description := s.description
              status := StatusPanel.restoredStatus s.asyncStatus })
          p.clearSubagents
        = ((subagents.filter (fun s => s.mode = some SubagentMode.async)).map
            (fun s => (⟨s.id, s.description,
              StatusPanel.restoredStatus s.asyncStatus⟩ : PanelSubagentInfo))).foldl
            (fun acc r => acc.updateSubagent r) p.clearSubagents := by
    rw [List.foldl_map]
  have hnodup' :
      (((subagents.filter (fun s => s.mode = some SubagentMode.async)).map
        (fun s => (⟨s.id, s.description,
          StatusPanel.restoredStatus s.asyncStatus⟩ : PanelSubagentInfo))).map
        (fun r => r.id)).Nodup := by
    simpa [List.map_map, Function.comp] using hnodup
  have hmain :
      (p.restoreSubagents subagents).subagentElements
        = (subagents.filter (fun s => s.mode = some SubagentMode.async)).map
            (fun s => (s.id, mkSubagentElementView
                ⟨s.id, s.description, StatusPanel.restoredStatus s.asyncStatus⟩)) := by
    unfold StatusPanel.restoreSubagents
    rw [hfold, foldl_updateSubagent_fresh _ p.clearSubagents hm hnodup'
      (by intro r _ kv hkv; simp [StatusPanel.clearSubagents] at hkv)
      (by intro r _ kv hkv; simp [StatusPanel.clearSubagents] at hkv)]
    simp [StatusPanel.clearSubagents, List.map_map, Function.comp]
  refine ⟨hmain, rfl, rfl, rfl, ?_, ?_⟩
  · intro a h1 h2 h3
    rcases a with _ | st
    · rfl
    · cases st with
      | pending => rfl
      | running => rfl
      | completed => exact absurd rfl h1
      | error => exact absurd rfl h2
      | orphaned => exact absurd rfl h3
  · intro kv hkv
    rw [hmain] at hkv
    obtain ⟨s, _, heq⟩ := List.mem_map.mp hkv
    subst heq
    rcases restoredStatus_terminal s.asyncStatus with h | h | h <;>
      simp [mkSubagentElementView, h, getStatusText]

/-- Witness for C1: restoring a running, a completed and a sync record
(the sync one has no mode) leaves exactly two entries, the running one
displayed orphaned, the completed one unchanged. -/
theorem restoreSubagents_spec_witness :
    ((StatusPanel.new.mount).restoreSubagents
        [⟨"running-1", "Running task", some .async, some .running⟩,
         ⟨"completed-1", "Done task", some .async, some .completed⟩,
         ⟨"sync-1", "Sync task", none, none⟩]).subagentElements
      = [("running-1", ⟨"Running task", "Orphaned", .orphaned⟩),
         ("completed-1", ⟨"Done task", "", .completed⟩)] :=
  ((restoreSubagents_spec (StatusPanel.new.mount)
      [⟨"running-1", "Running task", some .async, some .running⟩,
       ⟨"completed-1", "Done task", some .async, some .completed⟩,
       ⟨"sync-1", "Sync task", none, none⟩] rfl (by decide)).1).trans (by decide)

/-- C10: calling `updateTodos` before the panel is mounted (the todo
container elements are still null) is a silent no-op for any argument:
the panel state, in particular the stored `currentTodos` field, is
unchanged. -/
theorem updateTodos_before_mount (p : StatusPanel) (todos : Option (List TodoItem))
    (h : p.mounted = false) :
    p.updateTodos todos = p ∧ (p.updateTodos todos).currentTodos = p.currentTodos := by
  have he : p.updateTodos todos = p := by simp [StatusPanel.updateTodos, h]
  exact ⟨he, by rw [he]⟩

/-- Witness for C10: a fresh (unmounted) panel ignores a non-empty todo
list. -/
theorem updateTodos_before_mount_witness :
    StatusPanel.new.updateTodos (some [⟨"Task", "Task", .pending⟩]) = StatusPanel.new :=
  (updateTodos_before_mount StatusPanel.new (some [⟨"Task", "Task", .pending⟩]) rfl).1

/-- C8: a sub-agent description longer than 40 characters is displayed
as its first 40 characters followed by a literal ellipsis, both in the
status panel label and in a stored sub-agent block label; a description
of length at most 40 is displayed unchanged. -/
theorem description_truncation (d : String) (info : PanelSubagentInfo) :
    (40 < d.length →
        truncateDescription40 d = d.take 40 ++ "..." ∧
        renderStoredSubagentLabelText d = d.take 40 ++ "...") ∧
    (d.length ≤ 40 →
        truncateDescription40 d = d ∧ renderStoredSubagentLabelText d = d) ∧
    (mkSubagentElementView info).labelText = truncateDescription40 info.description := by
  refine ⟨?_, ?_, rfl⟩
  · intro h
    have hn : ¬ d.length ≤ 40 := not_le.mpr h
    constructor <;>
      simp [truncateDescription40, renderStoredSubagentLabelText, truncateDescription, hn]
  · intro h
    constructor <;>
      simp [truncateDescription40, renderStoredSubagentLabelText, truncateDescription, h]

set_option maxRecDepth 4000 in
/-- Witness for C8: a 50-character description is cut to 40 characters
plus an ellipsis; a short one passes through. -/
theorem description_truncation_witness :
    truncateDescription40 "AAAAAAAAAAAAAAAAAAAAAAAAAAAAAAAAAAAAAAAAAAAAAAAAAA"
        = "AAAAAAAAAAAAAAAAAAAAAAAAAAAAAAAAAAAAAAAA" ++ "..." ∧
    truncateDescription40 "short" = "short" := by
  have h1 := (description_truncation "AAAAAAAAAAAAAAAAAAAAAAAAAAAAAAAAAAAAAAAAAAAAAAAAAA"
    ⟨"", "", .pending⟩).1 (by decide)
  have h2 := (description_truncation "short" ⟨"", "", .pending⟩).2.1 (by decide)
  exact ⟨h1.1.trans (by decide), h2.1⟩

/-- Folding message appends accumulates children and counts calls. -/
theorem renderMessages_foldl_aux (msgs : List StoredMessage) (init : List ContainerChild)
    (n : Nat) :
    msgs.foldl (fun acc m => (acc.1 ++ [ContainerChild.message m], acc.2 + 1)) (init, n)
      = (init ++ msgs.map ContainerChild.message, n + msgs.length) := by
  induction msgs generalizing init n with
  | nil => simp
  | cons m ms ih =>
      rw [List.foldl_cons, ih]
      simp
      omega

/-- C9: `renderMessages` first clears the container (no prior child
survives), creates exactly one welcome element — also when the list is
non-empty — and then calls `renderStoredMessage` once per stored
message, in list order. -/
theorem renderMessages_spec (container : List ContainerChild)
    (messages : List StoredMessage) (emptyStateFactory : Unit → String) :
    (renderMessages container messages emptyStateFactory).1
        = ContainerChild.welcome (emptyStateFactory ())
            :: messages.map ContainerChild.message
    ∧ (renderMessages container messages emptyStateFactory).2 = messages.length := by
  unfold renderMessages
  rw [renderMessages_foldl_aux]
  simp

/-- C6: a collapsible block starts collapsed unless `initiallyExpanded`
is explicitly true; `Enter` and Space on the header toggle the state,
update the expanded class, content visibility and `aria-expanded`, call
`preventDefault` and invoke `onToggle` with the new state; any other key
changes nothing and does not call `preventDefault`; a click toggles the
same way. -/
theorem collapsible_spec (base : Option String) (b : Bool) (key : String) :
    ((key = "Enter" ∨ key = " ") →
        collapsibleKeydown base (applyCollapsibleState base b) key
          = (applyCollapsibleState base (!b), true, some (!b))) ∧
    (key ≠ "Enter" → key ≠ " " →
        collapsibleKeydown base (applyCollapsibleState base b) key
          = (applyCollapsibleState base b, false, none)) ∧
    setupCollapsible false base = applyCollapsibleState base false ∧
    (setupCollapsible false base).isExpanded = false ∧
    (setupCollapsible false base).wrapperExpanded = false ∧
    (setupCollapsible false base).contentDisplay = "none" ∧
    (setupCollapsible false base).ariaExpanded = "false" ∧
    (setupCollapsible true base).isExpanded = true ∧
    (toggleCollapsible base (applyCollapsibleState base b)).1
        = applyCollapsibleState base (!b) ∧
    (toggleCollapsible base (applyCollapsibleState base b)).2 = !b ∧
    (applyCollapsibleState base b).isExpanded = b ∧
    (applyCollapsibleState base b).wrapperExpanded = b ∧
    (applyCollapsibleState base b).contentDisplay = (if b then "block" else "none") ∧
    (applyCollapsibleState base b).ariaExpanded = (if b then "true" else "false") := by
  refine ⟨?_, ?_, rfl, rfl, rfl, rfl, rfl, rfl, rfl, rfl, rfl, rfl, rfl, rfl⟩
  · intro hk
    simp [collapsibleKeydown, hk, toggleCollapsible, applyCollapsibleState]
  · intro h1 h2
    simp [collapsibleKeydown, h1, h2]

/-- Witness for C6: Enter toggles a collapsed block open (with
preventDefault and an `onToggle true` call); Tab leaves it untouched. -/
theorem collapsible_spec_witness :
    collapsibleKeydown none (applyCollapsibleState none false) "Enter"
        = (applyCollapsibleState none true, true, some true) ∧
    collapsibleKeydown none (applyCollapsibleState none false) "Tab"
        = (applyCollapsibleState none false, false, none) :=
  ⟨by simpa using (collapsible_spec none false "Enter").1 (Or.inl rfl),
   (collapsible_spec none false "Tab").2.1 (by decide) (by decide)⟩

/-- C7: on a sync sub-agent block holding a single tool call,
`updateSubagentToolResult` with a non-matching id is a silent no-op (the
state — in particular the displayed tool call and the unset result
element — is unchanged); with the matching id it creates the result
element once and reuses the same element on a subsequent update. -/
theorem updateSubagentToolResult_spec (id desc : String) (tc : ToolCallInfo)
    (badId : String) (upd upd2 : ToolCallInfo)
    (hbad : badId ≠ tc.id) (hid : upd.id = tc.id) (hres : upd.result.isSome) :
    updateSubagentToolResult (addSubagentToolCall (createSubagentBlock id desc) tc) badId upd
        = addSubagentToolCall (createSubagentBlock id desc) tc
    ∧ (updateSubagentToolResult (addSubagentToolCall (createSubagentBlock id desc) tc)
        badId upd).currentResultEl = none
    ∧ (updateSubagentToolResult (addSubagentToolCall (createSubagentBlock id desc) tc)
        tc.id upd).currentResultEl
        = some (addSubagentToolCall (createSubagentBlock id desc) tc).nextEl
    ∧ (updateSubagentToolResult
        (updateSubagentToolResult (addSubagentToolCall (createSubagentBlock id desc) tc)
          tc.id upd)
        tc.id upd2).currentResultEl
        = some (addSubagentToolCall (createSubagentBlock id desc) tc).nextEl := by
  obtain ⟨r, hr⟩ := Option.isSome_iff_exists.mp hres
  have htc : tc.id ≠ badId := Ne.symm hbad
  have hnoop :
      updateSubagentToolResult (addSubagentToolCall (createSubagentBlock id desc) tc)
        badId upd = addSubagentToolCall (createSubagentBlock id desc) tc := by
    simp [updateSubagentToolResult, addSubagentToolCall, createSubagentBlock, htc]
  have hcreate :
      (updateSubagentToolResult (addSubagentToolCall (createSubagentBlock id desc) tc)
        tc.id upd).currentResultEl
        = some (addSubagentToolCall (createSubagentBlock id desc) tc).nextEl := by
    simp [updateSubagentToolResult, addSubagentToolCall, createSubagentBlock, hr]
  refine ⟨hnoop, by rw [hnoop]; rfl, hcreate, ?_⟩
  have hstate :
      updateSubagentToolResult (addSubagentToolCall (createSubagentBlock id desc) tc)
        tc.id upd
        = { subagentId := id
            toolCalls := [upd]
            labelText := desc
            countText := "1 tool uses"
            currentToolEl := some (0, tc.id)
            currentResultEl := some 1
            currentResultText := some r
            nextEl := 2 } := by
    simp [updateSubagentToolResult, addSubagentToolCall, createSubagentBlock, hr]
    rfl
  rw [hstate]
  cases hr2 : upd2.result <;>
    simp [updateSubagentToolResult, addSubagentToolCall, createSubagentBlock, hid, hr2]

/-- Witness for C7 at the test's concrete input: a non-matching update
on a one-tool block is ignored and the result element stays unset; a
matching update creates element 1 and a second update reuses it. -/
theorem updateSubagentToolResult_spec_witness :
    updateSubagentToolResult
        (addSubagentToolCall (createSubagentBlock "task-1" "Test task")
          ⟨"tool-1", "Read", .running, none, false⟩)
        "tool-999" ⟨"tool-1", "Read", .completed, some "File contents", false⟩
      = addSubagentToolCall (createSubagentBlock "task-1" "Test task")
          ⟨"tool-1", "Read", .running, none, false⟩
    ∧ (updateSubagentToolResult
        (updateSubagentToolResult
          (addSubagentToolCall (createSubagentBlock "task-1" "Test task")
            ⟨"tool-1", "Read", .running, none, false⟩)
          "tool-1" ⟨"tool-1", "Read", .completed, some "First result", false⟩)
        "tool-1" ⟨"tool-1", "Read", .completed, some "Updated result", false⟩).currentResultEl
      = some 1 := by
  have h := updateSubagentToolResult_spec "task-1" "Test task"
    ⟨"tool-1", "Read", .running, none, false⟩ "tool-999"
    ⟨"tool-1", "Read", .completed, some "First result", false⟩
    ⟨"tool-1", "Read", .completed, some "Updated result", false⟩
    (by decide) rfl rfl
  have h' := updateSubagentToolResult_spec "task-1" "Test task"
    ⟨"tool-1", "Read", .running, none, false⟩ "tool-999"
    ⟨"tool-1", "Read", .completed, some "File contents", false⟩
    ⟨"tool-1", "Read", .completed, some "Updated result", false⟩
    (by decide) rfl rfl
  exact ⟨h'.1, h.2.2.2⟩

/-- Rendering a content block never produces a response footer. -/
theorem renderContentBlock_no_footer (msg : StoredMessage) (b : ContentBlock) :
    (renderContentBlock msg b).filterMap responseFooterText? = [] := by
  cases b with
  | text c =>
      by_cases h : c.trim = "" <;> simp [renderContentBlock, h, responseFooterText?]
  | thinking c => simp [renderContentBlock, responseFooterText?]
  | toolUse tid =>
      cases hf : msg.toolCalls.find? (fun tc => tc.id = tid) with
      | none => simp [renderContentBlock, hf]
      | some tc =>
          simp only [renderContentBlock, hf]
          split_ifs <;> simp [responseFooterText?]
  | subagentRef sid =>
      cases hf : msg.subagents.find? (fun sa => sa.id = sid) with
      | none => simp [renderContentBlock, hf]
      | some sa =>
          simp only [renderContentBlock, hf]
          split_ifs <;> simp [responseFooterText?]

/-- Rendering the content blocks of a message never produces a footer. -/
theorem renderAssistantBlocks_no_footer (msg : StoredMessage) :
    (renderAssistantBlocks msg).filterMap responseFooterText? = [] := by
  have haux : ∀ bs : List ContentBlock,
      (bs.flatMap (renderContentBlock msg)).filterMap responseFooterText? = [] := by
    intro bs
    induction bs with
    | nil => rfl
    | cons b bs ih =>
        rw [List.flatMap_cons, List.filterMap_append, renderContentBlock_no_footer, ih]
        rfl
  exact haux msg.contentBlocks

/-- C5: a stored assistant message with `durationSeconds` present and
positive renders exactly one response footer, whose text is the flavor
word (literal default `Baked` when `durationFlavorWord` is absent)
followed by the duration formatted as `<n>m <n>s`; a zero or absent
`durationSeconds` renders no footer. -/
theorem duration_footer_spec (msg : StoredMessage) :
    (∀ d, msg.durationSeconds = some d → 0 < d →
        (renderStoredMessageEvents msg).filterMap responseFooterText?
          = [(msg.durationFlavorWord.getD "Baked") ++ " " ++ formatDuration d]) ∧
    (msg.durationSeconds = some 0 →
        (renderStoredMessageEvents msg).filterMap responseFooterText? = []) ∧
    (msg.durationSeconds = none →
        (renderStoredMessageEvents msg).filterMap responseFooterText? = []) := by
  have hbase : ∀ l : List RenderEvent,
      (renderAssistantBlocks msg ++ l).filterMap responseFooterText?
        = l.filterMap responseFooterText? := by
    intro l
    rw [List.filterMap_append, renderAssistantBlocks_no_footer]
    rfl
  unfold renderStoredMessageEvents
  refine ⟨?_, ?_, ?_⟩
  · intro d hd hpos
    rw [hbase]
    simp [renderDurationFooter, hd, hpos, responseFooterText?]
  · intro hd
    rw [hbase]
    simp [renderDurationFooter, hd]
  · intro hd
    rw [hbase]
    simp [renderDurationFooter, hd]

/-- Witness for C5: `durationSeconds = 65` with no flavor word renders
exactly one footer reading `Baked 1m 5s`; `durationSeconds = 0` renders
none. -/
theorem duration_footer_spec_witness :
    (renderStoredMessageEvents
        ⟨[], [], [ContentBlock.text "Response"], some 65, none⟩).filterMap responseFooterText?
      = ["Baked 1m 5s"]
    ∧ (renderStoredMessageEvents
        ⟨[], [], [ContentBlock.text "Response"], some 0, none⟩).filterMap responseFooterText?
      = [] := by
  have h1 := (duration_footer_spec
    ⟨[], [], [ContentBlock.text "Response"], some 65, none⟩).1 65 rfl (by decide)
  have h2 := (duration_footer_spec
    ⟨[], [], [ContentBlock.text "Response"], some 0, none⟩).2.1 rfl
  exact ⟨h1.trans (by decide), h2⟩

/-- Rendering a single content block produces exactly the generic
tool-call renderer invocation its ordinary tool-use resolution demands. -/
theorem renderContentBlock_toolCalls (msg : StoredMessage) (b : ContentBlock) :
    (renderContentBlock msg b).filterMap storedToolCallEvent?
      = (ordinaryToolUse? msg b).toList := by
  cases b with
  | text c =>
      by_cases h : c.trim = "" <;>
        simp [renderContentBlock, ordinaryToolUse?, h, storedToolCallEvent?]
  | thinking c => simp [renderContentBlock, ordinaryToolUse?, storedToolCallEvent?]
  | toolUse tid =>
      cases hf : msg.toolCalls.find? (fun tc => tc.id = tid) with
      | none => simp [renderContentBlock, ordinaryToolUse?, hf]
      | some tc =>
          simp only [renderContentBlock, ordinaryToolUse?, hf]
          split_ifs <;> simp [storedToolCallEvent?]
  | subagentRef sid =>
      cases hf : msg.subagents.find? (fun sa => sa.id = sid) with
      | none => simp [renderContentBlock, ordinaryToolUse?, hf]
      | some sa =>
          simp only [renderContentBlock, ordinaryToolUse?, hf]
          split_ifs <;> simp [storedToolCallEvent?]

/-- Rendering a block list yields one generic tool-call invocation per
ordinary tool-use block, in order. -/
theorem flatMap_toolCalls (msg : StoredMessage) (bs : List ContentBlock) :
    (bs.flatMap (renderContentBlock msg)).filterMap storedToolCallEvent?
      = bs.filterMap (ordinaryToolUse? msg) := by
  induction bs with
  | nil => rfl
  | cons b bs ih =>
      rw [List.flatMap_cons, List.filterMap_append, renderContentBlock_toolCalls, ih,
        List.filterMap_cons]
      cases h : ordinaryToolUse? msg b <;> simp [h]

/-- C2: in a stored assistant message, a `tool_use` block resolving to
the internal agent-output/signal tool produces zero invocations of the
generic tool-call renderer (it renders nothing at all), while every
ordinary `tool_use` block produces exactly one, in content-block order. -/
theorem taskOutput_suppressed (msg : StoredMessage) :
    (renderAssistantBlocks msg).filterMap storedToolCallEvent?
        = msg.contentBlocks.filterMap (ordinaryToolUse? msg)
    ∧ (∀ tid tc, msg.toolCalls.find? (fun t => t.id = tid) = some tc →
        tc.name = TOOL_AGENT_OUTPUT →
        renderContentBlock msg (ContentBlock.toolUse tid) = []) := by
  refine ⟨flatMap_toolCalls msg msg.contentBlocks, ?_⟩
  intro tid tc hfind hname
  simp [renderContentBlock, hfind, hname]

/-- Witness for C2 at the test's concrete input: an agent-output call
interleaved between Read and Grep yields exactly the two ordinary
invocations, in order, and the agent-output block renders nothing. -/
theorem taskOutput_suppressed_witness :
    (renderAssistantBlocks
        ⟨[⟨"read-1", "Read"⟩, ⟨"agent-output-1", "TaskOutput"⟩, ⟨"grep-1", "Grep"⟩], [],
         [ContentBlock.toolUse "read-1", ContentBlock.toolUse "agent-output-1",
          ContentBlock.toolUse "grep-1"], none, none⟩).filterMap storedToolCallEvent?
      = [("read-1", "Read"), ("grep-1", "Grep")]
    ∧ renderContentBlock
        ⟨[⟨"read-1", "Read"⟩, ⟨"agent-output-1", "TaskOutput"⟩, ⟨"grep-1", "Grep"⟩], [],
         [ContentBlock.toolUse "read-1", ContentBlock.toolUse "agent-output-1",
          ContentBlock.toolUse "grep-1"], none, none⟩
        (ContentBlock.toolUse "agent-output-1")
      = [] := by
  have h := taskOutput_suppressed
    ⟨[⟨"read-1", "Read"⟩, ⟨"agent-output-1", "TaskOutput"⟩, ⟨"grep-1", "Grep"⟩], [],
     [ContentBlock.toolUse "read-1", ContentBlock.toolUse "agent-output-1",
      ContentBlock.toolUse "grep-1"], none, none⟩
  exact ⟨h.1.trans (by decide),
    h.2 "agent-output-1" ⟨"agent-output-1", "TaskOutput"⟩ (by decide) rfl⟩

/-- What a caller reads through the getter is exactly the stored todo
array's content (the copy is fresh but equal). -/
theorem getCurrentTodosContent_eq (h : TodoHeap) (s : ChatState) :
    getCurrentTodosContent h s = s.todosCell.map (fun r => h.read r) := by
  rcases hc : s.todosCell with _ | r
  · simp [getCurrentTodosContent, getCurrentTodos, hc]
  · simp [getCurrentTodosContent, getCurrentTodos, hc, TodoHeap.alloc, TodoHeap.read,
      getD_append_length]

/-- C3: the `currentTodos` setter given an empty array stores null and
notifies the callback with null, never with the empty list; given a
non-empty array it notifies with that list; and the getter returns a
defensive copy — after storing a non-empty list the getter reads back
that list, and writing through the array the getter returned leaves a
subsequent getter call's result unchanged. -/
theorem currentTodos_spec (h : TodoHeap) (s : ChatState) (v w : List TodoItem) :
    (setCurrentTodos h s []).2.1.todosCell = none
    ∧ (setCurrentTodos h s []).2.2 = [ChatStateEvent.todosChanged none]
    ∧ (v ≠ [] → (setCurrentTodos h s v).2.2 = [ChatStateEvent.todosChanged (some v)])
    ∧ (v ≠ [] →
        getCurrentTodosContent (setCurrentTodos h s v).1 (setCurrentTodos h s v).2.1
          = some v)
    ∧ (∀ r, s.todosCell = some r → r < h.cells.length →
        ∀ r', (getCurrentTodos h s).2 = some r' →
          getCurrentTodosContent ((getCurrentTodos h s).1.write r' w) s
            = getCurrentTodosContent h s) := by
  refine ⟨rfl, rfl, ?_, ?_, ?_⟩
  · intro hv
    have hne : v.isEmpty = false := by
      cases v with
      | nil => exact absurd rfl hv
      | cons a t => rfl
    simp [setCurrentTodos, hne]
  · intro hv
    have hne : v.isEmpty = false := by
      cases v with
      | nil => exact absurd rfl hv
      | cons a t => rfl
    rw [getCurrentTodosContent_eq]
    simp [setCurrentTodos, hne, TodoHeap.alloc, TodoHeap.read, getD_append_length]
  · intro r hr hrlt r' hr'
    have hr'' : r' = h.cells.length := by
      simp only [getCurrentTodos, hr, TodoHeap.alloc] at hr'
      exact (Option.some_inj.mp hr').symm
    subst hr''
    rw [getCurrentTodosContent_eq, getCurrentTodosContent_eq, hr]
    simp only [getCurrentTodos, hr, TodoHeap.alloc, TodoHeap.write, TodoHeap.read,
      Option.map]
    rw [getD_set_ne _ _ _ _ _ (by omega), getD_append_lt _ _ _ _ hrlt]

/-- Witness for C3: storing a one-item list notifies with the list;
mutating the copy the getter returned leaves a second get unchanged. -/
theorem currentTodos_spec_witness :
    (setCurrentTodos ⟨[]⟩
        ⟨[], false, false, true, none, none, none, [], [], []⟩
        [⟨"Test", "Testing", .pending⟩]).2.2
      = [ChatStateEvent.todosChanged (some [⟨"Test", "Testing", .pending⟩])]
    ∧ getCurrentTodosContent
        ((getCurrentTodos ⟨[[⟨"Test", "Testing", .pending⟩]]⟩
            ⟨[], false, false, true, none, some 0, none, [], [], []⟩).1.write 1
          [⟨"Test", "Testing", .pending⟩, ⟨"Other", "Othering", .pending⟩])
        ⟨[], false, false, true, none, some 0, none, [], [], []⟩
      = getCurrentTodosContent ⟨[[⟨"Test", "Testing", .pending⟩]]⟩
          ⟨[], false, false, true, none, some 0, none, [], [], []⟩ := by
  have h1 := currentTodos_spec ⟨[]⟩
    ⟨[], false, false, true, none, none, none, [], [], []⟩
    [⟨"Test", "Testing", .pending⟩]
    [⟨"Test", "Testing", .pending⟩, ⟨"Other", "Othering", .pending⟩]
  have h2 := currentTodos_spec ⟨[[⟨"Test", "Testing", .pending⟩]]⟩
    ⟨[], false, false, true, none, some 0, none, [], [], []⟩
    [⟨"Test", "Testing", .pending⟩]
    [⟨"Test", "Testing", .pending⟩, ⟨"Other", "Othering", .pending⟩]
  exact ⟨h1.2.2.1 (by decide), h2.2.2.2.2 0 rfl (by decide) 1 (by decide)⟩

/-- C4: after `resetForNewConversation` every getter reports the
documented default — no messages, not streaming, auto-scroll on, null
todos, all three identity maps empty — the messages, usage and todos
callbacks each fire (at least once) regardless of the prior state, and
the auto-scroll callback fires exactly when auto-scroll was not already
enabled. -/
theorem resetForNewConversation_spec (h : TodoHeap) (s : ChatState) :
    (resetForNewConversation s).1.messages = []
    ∧ (resetForNewConversation s).1.isStreaming = false
    ∧ (resetForNewConversation s).1.autoScrollEnabled = true
    ∧ getCurrentTodosContent h (resetForNewConversation s).1 = none
    ∧ (resetForNewConversation s).1.toolCallElements = []
    ∧ (resetForNewConversation s).1.writeEditStates = []
    ∧ (resetForNewConversation s).1.pendingTools = []
    ∧ ChatStateEvent.messagesChanged ∈ (resetForNewConversation s).2
    ∧ ChatStateEvent.usageChanged none ∈ (resetForNewConversation s).2
    ∧ ChatStateEvent.todosChanged none ∈ (resetForNewConversation s).2
    ∧ (s.autoScrollEnabled = false →
        ChatStateEvent.autoScrollChanged true ∈ (resetForNewConversation s).2)
    ∧ (s.autoScrollEnabled = true →
        ∀ b, ChatStateEvent.autoScrollChanged b ∉ (resetForNewConversation s).2) := by
  refine ⟨rfl, rfl, rfl, ?_, rfl, rfl, rfl, ?_, ?_, ?_, ?_, ?_⟩
  · rw [getCurrentTodosContent_eq]
    rfl
  · simp [resetForNewConversation]
  · simp [resetForNewConversation]
  · simp [resetForNewConversation]
  · intro hb
    simp [resetForNewConversation, hb]
  · intro hb b
    simp [resetForNewConversation, hb]

/-- Witness for C4 at the test's prior state (auto-scroll off, messages,
maps, usage and todos populated): defaults are restored and all four
callbacks fire, including auto-scroll with `true`. -/
theorem resetForNewConversation_spec_witness :
    (resetForNewConversation
        ⟨[⟨"1", "user", "hi", 1⟩], true, true, false, some ⟨100, 50⟩, some 0,
          some "queued", [("a", 0)], [], []⟩).1.messages = []
    ∧ ChatStateEvent.autoScrollChanged true ∈
        (resetForNewConversation
          ⟨[⟨"1", "user", "hi", 1⟩], true, true, false, some ⟨100, 50⟩, some 0,
            some "queued", [("a", 0)], [], []⟩).2 := by
  have h := resetForNewConversation_spec ⟨[]⟩
    ⟨[⟨"1", "user", "hi", 1⟩], true, true, false, some ⟨100, 50⟩, some 0,
      some "queued", [("a", 0)], [], []⟩
  exact ⟨h.1, h.2.2.2.2.2.2.2.2.2.2.1 rfl⟩

end Claudian
